import Mathlib

/- Verification of the message-routing core of the meshtastic-bridge
   repository: the admission filter (src/message_filter.py), the router
   fan-out (`EnhancedMeshtasticBridge._handle_message` in
   src/bridge_enhanced.py) and the deduplication tracker (class
   `MessageTracker` from bridge.py, which is not among the sources and is
   therefore modelled from the specification). -/

/-- Prefix test on character lists: `isPrefOf sub l` is true iff `sub` is an
initial segment of `l`. Helper for the model of Python's `in` on strings. -/
def isPrefOf : List Char → List Char → Bool
  | [], _ => true
  | _ :: _, [] => false
  | a :: as, b :: bs => a == b && isPrefOf as bs

/-- Model of Python's substring containment `sub in hay` on character lists:
true iff `sub` occurs contiguously inside the second argument. The empty
list is contained in every list, as in Python. -/
def containsSub (sub : List Char) : List Char → Bool
  | [] => isPrefOf sub []
  | c :: rest => isPrefOf sub (c :: rest) || containsSub sub rest

/-- Model of Python's `sub in hay` on strings. -/
def strContains (hay sub : String) : Bool :=
  containsSub sub.data hay.data

/-- Model of Python's `str.lower()` (ASCII case folding, which is all the
sources rely on). -/
def pyLower (s : String) : String :=
  String.mk (s.data.map Char.toLower)

/-- Abstract regular-expression engine. `compile p` models
`re.compile(p, re.IGNORECASE)`: `none` models `re.error` being raised for a
malformed pattern, `some m` yields the compiled matcher, where `m text`
models `bool(compiled.search(text))`. The engine is a parameter of the
embedding; the sources only ever call these two operations. -/
structure RegexEngine where
  compile : String → Option (String → Bool)

/-- Filter rule (dataclass `FilterRule` in src/message_filter.py):
`filter_type` is one of "keyword", "regex", "sender", "channel" and
`action` one of "allow", "block". -/
structure FilterRule where
  name : String
  filter_type : String
  pattern : String
  action : String
  priority : Int
deriving DecidableEq

/-- Raw configuration of one custom rule (the dict read by
`MessageFilter._load_custom_rules`); `none` models a missing key, replaced
by the documented default. `rtype` models the "type" key. -/
structure RuleConfig where
  name : Option String
  rtype : Option String
  pattern : Option String
  action : Option String
  priority : Option Int
deriving DecidableEq

/-- Filter statistics dictionary (`MessageFilter.stats`). -/
structure FilterStats where
  total_checked : Nat
  total_allowed : Nat
  total_blocked : Nat
  blocked_by_sender : Nat
  blocked_by_content : Nat
  blocked_by_channel : Nat
deriving DecidableEq

/-- State of a `MessageFilter` instance after `__init__`: the configured
lists, the compiled content regexes, the custom rules sorted by descending
priority, and the statistics counters. -/
structure MessageFilter where
  enabled : Bool
  whitelist_nodes : List String
  blacklist_nodes : List String
  keywords : List String
  regex_patterns : List (String → Bool)
  allowed_channels : List Int
  blocked_channels : List Int
  custom_rules : List FilterRule
  stats : FilterStats

/-- Normalized message record handed to the filter (the dict built in
`_handle_message` with keys id, from, to, text, channel). -/
structure Message where
  id : Nat
  fromNode : String
  toNode : String
  text : String
  channel : Int
deriving DecidableEq

/-- Builds one `FilterRule` from its raw configuration with the defaults
used by `_load_custom_rules` (name "Unnamed", type "keyword", empty
pattern, action "allow", priority 0). -/
def ruleOfConfig (c : RuleConfig) : FilterRule :=
  { name := c.name.getD "Unnamed"
    filter_type := c.rtype.getD "keyword"
    pattern := c.pattern.getD ""
    action := c.action.getD "allow"
    priority := c.priority.getD 0 }

/-- Stable insertion of a rule into a priority-descending list, placing the
new rule after every rule of greater or equal priority; models the effect
of Python's stable `list.sort(key=priority, reverse=True)`. -/
def insertRuleDesc (r : FilterRule) : List FilterRule → List FilterRule
  | [] => [r]
  | x :: xs => if x.priority < r.priority then r :: x :: xs else x :: insertRuleDesc r xs

/-- Stable sort of the custom rules by descending priority
(`self.custom_rules.sort(key=lambda r: r.priority, reverse=True)`). -/
def sortRulesDesc (rs : List FilterRule) : List FilterRule :=
  rs.foldl (fun acc r => insertRuleDesc r acc) []

/-- Model of `MessageFilter._load_custom_rules`: every configured rule is
materialized with its defaults (no validation of the pattern happens here)
and the list is sorted by descending priority. -/
def loadCustomRules (cfgs : List RuleConfig) : List FilterRule :=
  sortRulesDesc (cfgs.map ruleOfConfig)

/-- Model of the regex-compilation loop in `MessageFilter.__init__`: each
pattern of `content_filters.regex_patterns` is compiled; a pattern whose
compilation fails is logged and skipped. -/
def loadRegexPatterns (eng : RegexEngine) (pats : List String) : List (String → Bool) :=
  pats.filterMap eng.compile

/-- Raw filter configuration dictionary (section `filtering`). -/
structure FilterConfig where
  enabled : Bool
  whitelist_nodes : List String
  blacklist_nodes : List String
  keywords : List String
  regex_patterns : List String
  allowed_channels : List Int
  blocked_channels : List Int
  custom_rules : List RuleConfig

/-- Model of `MessageFilter.__init__`. -/
def MessageFilter.ofConfig (eng : RegexEngine) (cfg : FilterConfig) : MessageFilter :=
  { enabled := cfg.enabled
    whitelist_nodes := cfg.whitelist_nodes
    blacklist_nodes := cfg.blacklist_nodes
    keywords := cfg.keywords
    regex_patterns := loadRegexPatterns eng cfg.regex_patterns
    allowed_channels := cfg.allowed_channels
    blocked_channels := cfg.blocked_channels
    custom_rules := loadCustomRules cfg.custom_rules
    stats := ⟨0, 0, 0, 0, 0, 0⟩ }

/-- Model of `MessageFilter._check_content`: empty text passes; otherwise
any configured keyword contained case-insensitively in the text, or any
compiled regex matching the text, blocks (returns false). -/
def check_content (f : MessageFilter) (text : String) : Bool :=
  if text = "" then true
  else if f.keywords.any (fun k => strContains (pyLower text) (pyLower k)) then false
  else if f.regex_patterns.any (fun p => p text) then false
  else true

/-- Model of `MessageFilter._evaluate_rule`: whether one rule matches a
message. A custom "regex" rule compiles its pattern here, at evaluation
time, and a compilation failure is caught and treated as no match; a
"channel" rule whose pattern is not an integer never matches. -/
def evaluate_rule (eng : RegexEngine) (rule : FilterRule) (m : Message) : Bool :=
  if rule.filter_type = "keyword" then
    strContains (pyLower m.text) (pyLower rule.pattern)
  else if rule.filter_type = "regex" then
    match eng.compile rule.pattern with
    | some matcher => matcher m.text
    | none => false
  else if rule.filter_type = "sender" then
    strContains m.fromNode rule.pattern
  else if rule.filter_type = "channel" then
    match rule.pattern.toInt? with
    | some n => m.channel == n
    | none => false
  else false

/-- Model of `MessageFilter._check_custom_rules`: rules are scanned in list
order (descending priority after loading); the first matching rule with
action "block" yields false, with action "allow" yields true; a matching
rule with any other action is skipped, and with no decisive match the
message is allowed. -/
def check_custom_rules (eng : RegexEngine) (rules : List FilterRule) (m : Message) : Bool :=
  match rules with
  | [] => true
  | r :: rest =>
    if evaluate_rule eng r m then
      if r.action = "block" then false
      else if r.action = "allow" then true
      else check_custom_rules eng rest m
    else check_custom_rules eng rest m

/-- Increment of `stats.total_checked` done at the top of `should_forward`. -/
def bumpChecked (f : MessageFilter) : MessageFilter :=
  { f with stats := { f.stats with total_checked := f.stats.total_checked + 1 } }

/-- Counter update of the two sender-block paths of `should_forward`. -/
def bumpBlockedSender (f : MessageFilter) : MessageFilter :=
  { f with stats := { f.stats with
      total_blocked := f.stats.total_blocked + 1
      blocked_by_sender := f.stats.blocked_by_sender + 1 } }

/-- Counter update of the two channel-block paths of `should_forward`. -/
def bumpBlockedChannel (f : MessageFilter) : MessageFilter :=
  { f with stats := { f.stats with
      total_blocked := f.stats.total_blocked + 1
      blocked_by_channel := f.stats.blocked_by_channel + 1 } }

/-- Counter update of the content-block path of `should_forward`. -/
def bumpBlockedContent (f : MessageFilter) : MessageFilter :=
  { f with stats := { f.stats with
      total_blocked := f.stats.total_blocked + 1
      blocked_by_content := f.stats.blocked_by_content + 1 } }

/-- Counter update of the custom-rule block path of `should_forward`. -/
def bumpBlockedCustom (f : MessageFilter) : MessageFilter :=
  { f with stats := { f.stats with total_blocked := f.stats.total_blocked + 1 } }

/-- Counter update of the allow path of `should_forward`. -/
def bumpAllowed (f : MessageFilter) : MessageFilter :=
  { f with stats := { f.stats with total_allowed := f.stats.total_allowed + 1 } }

/-- Model of `MessageFilter.should_forward`. The Python method mutates the
statistics dictionary; here the updated filter is returned alongside the
decision. A disabled filter returns True without touching any counter.
Otherwise `total_checked` is incremented and the checks run in source
order: sender whitelist, sender blacklist, channel whitelist, channel
blacklist, content filters, custom rules, then allow by default. The
source increments `total_checked` once before the checks; since no check
reads the statistics, applying `bumpChecked` at each outcome is pointwise
the same state transformation. -/
def should_forward (eng : RegexEngine) (f : MessageFilter) (m : Message) :
    Bool × MessageFilter :=
  if f.enabled = false then (true, f)
  else if f.whitelist_nodes ≠ [] ∧ f.whitelist_nodes.contains m.fromNode = false then
    (false, bumpBlockedSender (bumpChecked f))
  else if f.blacklist_nodes.contains m.fromNode then
    (false, bumpBlockedSender (bumpChecked f))
  else if f.allowed_channels ≠ [] ∧ f.allowed_channels.contains m.channel = false then
    (false, bumpBlockedChannel (bumpChecked f))
  else if f.blocked_channels.contains m.channel then
    (false, bumpBlockedChannel (bumpChecked f))
  else if check_content f m.text = false then
    (false, bumpBlockedContent (bumpChecked f))
  else if check_custom_rules eng f.custom_rules m = false then
    (false, bumpBlockedCustom (bumpChecked f))
  else
    (true, bumpAllowed (bumpChecked f))

/-- Modelled from the spec: `TrackedEntry`, the deduplication tracker's
record of one message (class `MessageTracker` lives in bridge.py, which is
not among the source files; §3 and §4.1 of the specification describe it).
Timestamps are omitted because the age-based eviction policy is orthogonal
to every claim about a single routing pass. -/
structure TrackedEntry where
  id : Nat
  fromNode : String
  toNode : String
  text : String
  channel : Int
  forwarded : Bool
  forwardCount : Nat
deriving DecidableEq

/-- Modelled from the spec: the deduplication tracker's state, a cache of
entries keyed by message id (bridge.py's `MessageTracker` is not among the
source files). The age/capacity eviction bounds of §4.1 are omitted as no
claim depends on them. -/
structure MessageTracker where
  entries : List TrackedEntry
deriving DecidableEq

/-- Modelled from the spec: `Seen(id)` — true iff an entry with this id
currently exists; side-effect free (§4.1). Models `tracker.has_seen`. -/
def MessageTracker.has_seen (t : MessageTracker) (id : Nat) : Bool :=
  t.entries.any (fun e => e.id == id)

/-- Modelled from the spec: `Record` — idempotent insert, "first write
wins": if the id is already present the existing entry is returned and the
state is unchanged; otherwise a fresh entry with `forwarded = false` and
`forwardCount = 0` is inserted (§4.1). Models `tracker.add_message`. -/
def MessageTracker.add_message (t : MessageTracker) (id : Nat)
    (fromNode toNode text : String) (channel : Int) :
    TrackedEntry × MessageTracker :=
  match t.entries.find? (fun e => e.id == id) with
  | some e => (e, t)
  | none =>
    let e : TrackedEntry := ⟨id, fromNode, toNode, text, channel, false, 0⟩
    (e, ⟨e :: t.entries⟩)

/-- Modelled from the spec: `MarkForwarded(id)` — sets `forwarded = true`
and increments `forwardCount` on the entry with this id; unknown ids are
reported (return value unused by the router), never fatal (§4.1). Models
`tracker.mark_forwarded`. -/
def MessageTracker.mark_forwarded (t : MessageTracker) (id : Nat) : MessageTracker :=
  ⟨t.entries.map (fun e =>
    if e.id == id then { e with forwarded := true, forwardCount := e.forwardCount + 1 }
    else e)⟩

/-- Continuation-byte test for the UTF-8 decoder (0x80..0xBF). -/
def isCont (b : Nat) : Bool := 128 ≤ b && b ≤ 191

/-- Range constraint CPython places on the second byte of a three-byte
UTF-8 sequence (tighter for lead bytes 0xE0 and 0xED, excluding overlong
encodings and surrogates). -/
def cont2of3 (lead b : Nat) : Bool :=
  if lead = 224 then 160 ≤ b && b ≤ 191
  else if lead = 237 then 128 ≤ b && b ≤ 159
  else isCont b

/-- Range constraint on the second byte of a four-byte UTF-8 sequence
(tighter for lead bytes 0xF0 and 0xF4, excluding overlong encodings and
code points beyond U+10FFFF). -/
def cont2of4 (lead b : Nat) : Bool :=
  if lead = 240 then 144 ≤ b && b ≤ 191
  else if lead = 244 then 128 ≤ b && b ≤ 143
  else isCont b

/-- One step of the UTF-8 decoder: given the current byte and the remaining
bytes, yields either `some` decoded character or `none` for a decoding
error (the token the error handler acts on), together with how many extra
bytes beyond the current one were consumed. On an error the maximal valid
subpart of the sequence is consumed, as in CPython's decoder. -/
def utf8Step (b : Nat) (rest : List Nat) : Option Char × Nat :=
  if b ≤ 127 then (some (Char.ofNat b), 0)
  else if 194 ≤ b && b ≤ 223 then
    match rest with
    | c1 :: _ => if isCont c1 then (some (Char.ofNat ((b - 192) * 64 + (c1 - 128))), 1) else (none, 0)
    | [] => (none, 0)
  else if 224 ≤ b && b ≤ 239 then
    match rest with
    | c1 :: rest1 =>
      if cont2of3 b c1 then
        match rest1 with
        | c2 :: _ =>
          if isCont c2 then
            (some (Char.ofNat (((b - 224) * 64 + (c1 - 128)) * 64 + (c2 - 128))), 2)
          else (none, 1)
        | [] => (none, 1)
      else (none, 0)
    | [] => (none, 0)
  else if 240 ≤ b && b ≤ 244 then
    match rest with
    | c1 :: rest1 =>
      if cont2of4 b c1 then
        match rest1 with
        | c2 :: rest2 =>
          if isCont c2 then
            match rest2 with
            | c3 :: _ =>
              if isCont c3 then
                (some (Char.ofNat ((((b - 240) * 64 + (c1 - 128)) * 64 + (c2 - 128)) * 64 + (c3 - 128))), 3)
              else (none, 2)
            | [] => (none, 2)
          else (none, 1)
        | [] => (none, 1)
      else (none, 0)
    | [] => (none, 0)
  else (none, 0)

/-- Token stream of the UTF-8 decoder with explicit fuel (each step consumes
at least one byte, so `bs.length` fuel always suffices): `some c` is a
decoded character, `none` a decoding error to be handled by the error
handler. -/
def utf8TokensFuel : Nat → List Nat → List (Option Char)
  | 0, _ => []
  | _, [] => []
  | fuel + 1, b :: rest =>
    (utf8Step b rest).1 :: utf8TokensFuel fuel (rest.drop (utf8Step b rest).2)

/-- Token stream of the UTF-8 decoder over a byte string. -/
def utf8Tokens (bs : List Nat) : List (Option Char) :=
  utf8TokensFuel bs.length bs

/-- Model of `payload.decode('utf-8', errors='ignore')`, the call the router
makes in `_handle_message`: decoding errors are dropped from the output and
never raised. -/
def decodeUtf8Ignore (bs : List Nat) : String :=
  String.mk (utf8Tokens bs).reduceOption

/-- Modelled from the spec: decoding as the specification words it — "text
(UTF-8, best-effort decoded — invalid bytes are replaced, never fatal)",
i.e. `errors='replace'`: every decoding error becomes U+FFFD. Stated for
comparison with `decodeUtf8Ignore`, which is what the source calls. -/
def decodeUtf8Replace (bs : List Nat) : String :=
  String.mk ((utf8Tokens bs).map (fun t => t.getD (Char.ofNat 65533)))

/-- Model of `payload.decode('utf-8', errors='strict')` (Python's default):
`none` models `UnicodeDecodeError` being raised. Used to state that the
ignoring decoder agrees with strict decoding on valid input. -/
def decodeUtf8Strict (bs : List Nat) : Option String :=
  if (utf8Tokens bs).all Option.isSome then some (String.mk (utf8Tokens bs).reduceOption)
  else none

/-- Payload of a decoded packet: either a byte string or a non-bytes value
whose `str()` form is taken (`_handle_message` lines 245-249). -/
inductive Payload where
  | bytes (bs : List Nat)
  | strOf (s : String)
deriving DecidableEq

/-- Model of the text extraction in `_handle_message`: byte payloads are
UTF-8-decoded with errors ignored, anything else is used via `str()`. -/
def extractText : Payload → String
  | Payload.bytes bs => decodeUtf8Ignore bs
  | Payload.strOf s => s

/-- The `decoded` sub-dictionary of a received packet. -/
structure Decoded where
  portnum : String
  payload : Payload
deriving DecidableEq

/-- A received packet as `_handle_message` reads it; `none` fields model
missing dictionary keys, replaced by the source's `.get` defaults. -/
structure Packet where
  decoded : Option Decoded
  id : Option Nat
  fromId : Option String
  toId : Option String
  channel : Option Int
deriving DecidableEq

/-- The message dictionary `_handle_message` builds for the filter and the
tracker, with the source's `.get` defaults applied. -/
def mkMessage (pkt : Packet) (d : Decoded) : Message :=
  { id := pkt.id.getD 0
    fromNode := pkt.fromId.getD "unknown"
    toNode := pkt.toId.getD "unknown"
    text := extractText d.payload
    channel := pkt.channel.getD 0 }

/-- Per-radio statistics (`self.stats[radio]` in bridge_enhanced.py). -/
structure RadioStats where
  received : Nat
  sent : Nat
  errors : Nat
deriving DecidableEq

/-- Applies `f` to the element at position `i`, leaving the rest unchanged
(how the per-radio statistics map is updated, with radios indexed in
registration order). -/
def bumpAt (f : RadioStats → RadioStats) : List RadioStats → Nat → List RadioStats
  | [], _ => []
  | s :: rest, 0 => f s :: rest
  | s :: rest, n + 1 => s :: bumpAt f rest n

/-- State of the bridge as far as `_handle_message` touches it: the number
of registered radio interfaces (fan-out iterates their indices in
registration order), the tracker, the optional filter, and per-radio
statistics. The database, metrics, MQTT and web collaborators are disabled
(`None`); they only consume copies and never influence routing. -/
structure Bridge where
  numRadios : Nat
  tracker : MessageTracker
  filter : Option MessageFilter
  stats : List RadioStats

/-- Accumulated effects of the fan-out loop of `_handle_message`. -/
structure FanOut where
  tracker : MessageTracker
  stats : List RadioStats
  sends : List (Nat × Bool)
  markCalls : Nat

/-- The fan-out loop of `_handle_message` over the given interface indices:
the source index is skipped; for every other index `sendText` is attempted
(`sendOk i` tells whether it succeeds, false modelling a raised exception).
A successful send calls `mark_forwarded` on the tracker and increments the
target's `sent` counter; a failed send is caught and increments the
target's `errors` counter; either way the loop continues. `sends` records
every attempt in order with its outcome, `markCalls` counts the
`mark_forwarded` calls. -/
def fanOutAux (sendOk : Nat → Bool) (src : Nat) (msgId : Nat) :
    List Nat → MessageTracker → List RadioStats → FanOut
  | [], tr, st => ⟨tr, st, [], 0⟩
  | i :: is, tr, st =>
    if i = src then fanOutAux sendOk src msgId is tr st
    else if sendOk i then
      let r := fanOutAux sendOk src msgId is (tr.mark_forwarded msgId)
        (bumpAt (fun s => { s with sent := s.sent + 1 }) st i)
      { r with sends := (i, true) :: r.sends, markCalls := r.markCalls + 1 }
    else
      let r := fanOutAux sendOk src msgId is tr
        (bumpAt (fun s => { s with errors := s.errors + 1 }) st i)
      { r with sends := (i, false) :: r.sends }

/-- Result of one `_handle_message` call: the updated bridge state, the
`sendText` attempts in order (interface index, success), and the number of
`tracker.mark_forwarded` calls made. -/
structure HandleResult where
  bridge : Bridge
  sends : List (Nat × Bool)
  markForwardedCalls : Nat

/-- The admitted tail of `_handle_message`: record the message in the
tracker, bump the source radio's `received` counter, then fan out to every
other interface in registration order. -/
def routeAdmitted (sendOk : Nat → Bool) (br : Bridge) (m : Message) (srcIdx : Nat) :
    HandleResult :=
  let tr1 := (br.tracker.add_message m.id m.fromNode m.toNode m.text m.channel).2
  let st1 := bumpAt (fun s => { s with received := s.received + 1 }) br.stats srcIdx
  let r := fanOutAux sendOk srcIdx m.id (List.range br.numRadios) tr1 st1
  ⟨{ br with tracker := r.tracker, stats := r.stats }, r.sends, r.markCalls⟩

/-- Model of `EnhancedMeshtasticBridge._handle_message`: packets without a
`decoded` part or that are not text messages are ignored; an id the tracker
has already seen stops processing with no effect; next the filter (when
configured) is consulted, its statistics updated either way, and a rejected
message stops processing; otherwise the message is recorded and fanned out
to every interface except the source. -/
def handle_message (eng : RegexEngine) (sendOk : Nat → Bool) (br : Bridge)
    (pkt : Packet) (srcIdx : Nat) : HandleResult :=
  match pkt.decoded with
  | none => ⟨br, [], 0⟩
  | some d =>
    if d.portnum ≠ "TEXT_MESSAGE_APP" then ⟨br, [], 0⟩
    else if br.tracker.has_seen (pkt.id.getD 0) then ⟨br, [], 0⟩
    else
      match br.filter with
      | some f =>
        let r := should_forward eng f (mkMessage pkt d)
        if r.1 = false then ⟨{ br with filter := some r.2 }, [], 0⟩
        else routeAdmitted sendOk { br with filter := some r.2 } (mkMessage pkt d) srcIdx
      | none => routeAdmitted sendOk br (mkMessage pkt d) srcIdx

/-- First decisive outcome of an ordered list of checks: `some b` decides
`b`, `none` falls through, an exhausted list admits by default. Used to
state the specification's "first decisive step wins" evaluation order. -/
def firstDecisive : List (Option Bool) → Bool
  | [] => true
  | some b :: _ => b
  | none :: rest => firstDecisive rest

/-- Check (1) as the claim words it: a non-empty sender allow-list with the
sender absent blocks. -/
def stepSenderAllow (f : MessageFilter) (m : Message) : Option Bool :=
  if f.whitelist_nodes ≠ [] ∧ f.whitelist_nodes.contains m.fromNode = false then some false
  else none

/-- Check (2) as the claim words it: a sender on the deny-list blocks. -/
def stepSenderDeny (f : MessageFilter) (m : Message) : Option Bool :=
  if f.blacklist_nodes.contains m.fromNode then some false else none

/-- Check (3) as the claim words it: a non-empty channel allow-list with the
channel absent blocks. -/
def stepChannelAllow (f : MessageFilter) (m : Message) : Option Bool :=
  if f.allowed_channels ≠ [] ∧ f.allowed_channels.contains m.channel = false then some false
  else none

/-- Check (4) as the claim words it: a channel on the deny-list blocks. -/
def stepChannelDeny (f : MessageFilter) (m : Message) : Option Bool :=
  if f.blocked_channels.contains m.channel then some false else none

/-- Check (5) exactly as the claim words it: any case-insensitive keyword
substring match or regex match on the text blocks — with no exemption for
empty text. -/
def stepContentClaim (f : MessageFilter) (m : Message) : Option Bool :=
  if f.keywords.any (fun k => strContains (pyLower m.text) (pyLower k))
      || f.regex_patterns.any (fun p => p m.text) then some false
  else none

/-- Check (5) as the source implements it: empty text skips the content
check entirely; otherwise as in `stepContentClaim`. -/
def stepContentSource (f : MessageFilter) (m : Message) : Option Bool :=
  if m.text = "" then none else stepContentClaim f m

/-- Check (6): the custom rules, decisive exactly when they block (an
allow-rule match and no match both fall through to the default-admit step,
indistinguishable in outcome). -/
def stepCustom (eng : RegexEngine) (f : MessageFilter) (m : Message) : Option Bool :=
  if check_custom_rules eng f.custom_rules m then none else some false

/-- The admission pipeline exactly as claim C2 words it: checks (1)-(6) in
order, first decisive check wins, default admit. -/
def admitClaimC2 (eng : RegexEngine) (f : MessageFilter) (m : Message) : Bool :=
  firstDecisive [stepSenderAllow f m, stepSenderDeny f m, stepChannelAllow f m,
    stepChannelDeny f m, stepContentClaim f m, stepCustom eng f m]

/-- The admission pipeline with check (5) amended to the source's behavior
(empty text skips the content check). -/
def admitAmendedC2 (eng : RegexEngine) (f : MessageFilter) (m : Message) : Bool :=
  firstDecisive [stepSenderAllow f m, stepSenderDeny f m, stepChannelAllow f m,
    stepChannelDeny f m, stepContentSource f m, stepCustom eng f m]

/-- Engine on which every pattern fails to compile; fixtures that use no
regex rule are insensitive to the engine. -/
def engTriv : RegexEngine := ⟨fun _ => none⟩

/-- Engine under which the single pattern "x*" compiles to a matcher that
matches every text, including the empty one — as the real pattern `x*`
does. -/
def engStar : RegexEngine := ⟨fun p => if p = "x*" then some (fun _ => true) else none⟩

/-- Engine under which the pattern "[" is malformed (as for `re.compile`)
and every other pattern compiles to a never-matching matcher. -/
def engBad : RegexEngine := ⟨fun p => if p = "[" then none else some (fun _ => false)⟩

/-- Engine under which the pattern "[" compiles to an always-matching
matcher; differs from `engBad` only at "[", to exhibit that custom regex
rules consult the engine at evaluation time. -/
def engGood : RegexEngine := ⟨fun p => if p = "[" then some (fun _ => true) else none⟩

/-- Environment in which every `sendText` call succeeds. -/
def sendAll : Nat → Bool := fun _ => true

/-- Environment in which `sendText` on interface 2 raises and every other
interface succeeds. -/
def sendNot2 : Nat → Bool := fun i => !(i == 2)

/-- Filter configuration of the C2 counterexample: filtering enabled, one
content regex "x*" (matches everything, even empty text), nothing else. -/
def cfgC2 : FilterConfig :=
  ⟨true, [], [], [], ["x*"], [], [], []⟩

/-- The loaded C2 counterexample filter. -/
def fC2 : MessageFilter := MessageFilter.ofConfig engStar cfgC2

/-- A message with empty text. -/
def mC2 : Message := ⟨1, "nodeA", "broadcast", "", 0⟩

/-- Custom-rule configuration of claim C3: a priority-0 block rule on
sender "bad123456" listed first, a priority-100 allow rule on keyword
"EMERGENCY" listed second, so that the loader's descending sort matters. -/
def cfgC3 : FilterConfig :=
  ⟨true, [], [], [], [], [], [],
    [⟨some "Block bad node", some "sender", some "bad123456", some "block", some 0⟩,
     ⟨some "Emergency Priority", some "keyword", some "EMERGENCY", some "allow", some 100⟩]⟩

/-- The loaded C3 filter. -/
def fC3 : MessageFilter := MessageFilter.ofConfig engTriv cfgC3

/-- A message from the bad node whose text contains "EMERGENCY". -/
def mC3 : Message := ⟨3, "!bad123456", "broadcast", "EMERGENCY: Need help!", 0⟩

/-- Filter of the C1 counterexample: enabled, sender deny-list ["N2"]. -/
def fC1 : MessageFilter :=
  MessageFilter.ofConfig engTriv ⟨true, [], ["N2"], [], [], [], [], []⟩

/-- Bridge of the C1 counterexample: two radios, empty tracker, the
deny-list filter. -/
def brC1 : Bridge := ⟨2, ⟨[]⟩, some fC1, [⟨0, 0, 0⟩, ⟨0, 0, 0⟩]⟩

/-- Text packet with id 7 from the deny-listed node "N2". -/
def pktC1 : Packet :=
  ⟨some ⟨"TEXT_MESSAGE_APP", Payload.bytes [104, 105]⟩, some 7, some "N2",
    some "broadcast", some 0⟩

/-- Bridge of the C4 witness: the tracker has already seen id 5. -/
def brC4 : Bridge :=
  ⟨2, ⟨[⟨5, "N1", "broadcast", "hello", 0, true, 1⟩]⟩, none, [⟨1, 0, 0⟩, ⟨0, 1, 0⟩]⟩

/-- Text packet re-delivering the already-seen id 5. -/
def pktC4 : Packet :=
  ⟨some ⟨"TEXT_MESSAGE_APP", Payload.bytes [104, 105]⟩, some 5, some "N1",
    some "broadcast", some 0⟩

/-- Bridge of the C6/C7 witness: four radios, no filter, empty tracker. -/
def brC6 : Bridge :=
  ⟨4, ⟨[]⟩, none, [⟨0, 0, 0⟩, ⟨0, 0, 0⟩, ⟨0, 0, 0⟩, ⟨0, 0, 0⟩]⟩

/-- Text packet with id 9 carrying the bytes of "hi". -/
def pktC6 : Packet :=
  ⟨some ⟨"TEXT_MESSAGE_APP", Payload.bytes [104, 105]⟩, some 9, some "N1",
    some "broadcast", some 0⟩

/-- Raw configuration of a custom regex rule whose pattern "[" is
malformed. -/
def cfgRuleBad : RuleConfig := ⟨some "Bad", some "regex", some "[", some "block", some 5⟩

/-- The rule the loader builds from `cfgRuleBad`. -/
def ruleBad : FilterRule := ⟨"Bad", "regex", "[", "block", 5⟩

/-- An arbitrary message for evaluating `ruleBad`. -/
def mC8 : Message := ⟨8, "nodeX", "broadcast", "anything", 0⟩

/-- An enabled filter with an empty configuration (admits everything). -/
def fOn : MessageFilter := MessageFilter.ofConfig engTriv ⟨true, [], [], [], [], [], [], []⟩

/-- A disabled filter. -/
def fOff : MessageFilter := MessageFilter.ofConfig engTriv ⟨false, [], [], [], [], [], [], []⟩

/-- Whether the (optional) filter admits the message: an absent filter
admits everything, a present one decides via `should_forward` (the
short-circuit `if self.message_filter and not ...should_forward(...)` in
`_handle_message`). -/
def filterAdmits (eng : RegexEngine) : Option MessageFilter → Message → Bool
  | none, _ => true
  | some f, m => (should_forward eng f m).1

/-- The bridge after the filter consultation of `_handle_message`: when a
filter is present its statistics have been updated by `should_forward`,
nothing else changes. -/
def brAfterFilter (eng : RegexEngine) (br : Bridge) (m : Message) : Bridge :=
  match br.filter with
  | none => br
  | some f => { br with filter := some (should_forward eng f m).2 }

theorem mem_insertRuleDesc {x r : FilterRule} {l : List FilterRule} :
    x ∈ insertRuleDesc r l ↔ x = r ∨ x ∈ l := by
  induction l with
  | nil => simp [insertRuleDesc]
  | cons a as ih =>
    by_cases h : a.priority < r.priority
    · simp [insertRuleDesc, h, List.mem_cons] <;> tauto
    · simp [insertRuleDesc, h, List.mem_cons, ih] <;> tauto

theorem pairwise_insertRuleDesc {r : FilterRule} {l : List FilterRule}
    (hl : l.Pairwise (fun a b => b.priority ≤ a.priority)) :
    (insertRuleDesc r l).Pairwise (fun a b => b.priority ≤ a.priority) := by
  induction l with
  | nil => simp [insertRuleDesc]
  | cons a as ih =>
    rcases List.pairwise_cons.mp hl with ⟨ha, has⟩
    by_cases h : a.priority < r.priority
    · rw [insertRuleDesc, if_pos h]
      refine List.Pairwise.cons ?_ hl
      intro y hy
      rcases List.mem_cons.mp hy with rfl | hy
      · exact le_of_lt h
      · exact le_trans (ha y hy) (le_of_lt h)
    · rw [insertRuleDesc, if_neg h]
      refine List.Pairwise.cons ?_ (ih has)
      intro y hy
      rcases mem_insertRuleDesc.mp hy with rfl | hy
      · exact not_lt.mp h
      · exact ha y hy

theorem pairwise_sortRulesDesc (rs : List FilterRule) :
    (sortRulesDesc rs).Pairwise (fun a b => b.priority ≤ a.priority) := by
  unfold sortRulesDesc
  suffices h : ∀ (l : List FilterRule) (acc : List FilterRule),
      acc.Pairwise (fun a b => b.priority ≤ a.priority) →
      (l.foldl (fun acc r => insertRuleDesc r acc) acc).Pairwise
        (fun a b => b.priority ≤ a.priority) from h rs [] (by simp)
  intro l
  induction l with
  | nil => intro acc hacc; exact hacc
  | cons r rest ih => intro acc hacc; exact ih _ (pairwise_insertRuleDesc hacc)

theorem mem_sortRulesDesc {x : FilterRule} {rs : List FilterRule} (hx : x ∈ rs) :
    x ∈ sortRulesDesc rs := by
  unfold sortRulesDesc
  suffices h : ∀ (l : List FilterRule) (acc : List FilterRule), x ∈ acc ∨ x ∈ l →
      x ∈ l.foldl (fun acc r => insertRuleDesc r acc) acc from h rs [] (Or.inr hx)
  intro l
  induction l with
  | nil =>
    intro acc h
    simpa using h
  | cons r rest ih =>
    intro acc h
    apply ih
    rcases h with h | h
    · exact Or.inl (mem_insertRuleDesc.mpr (Or.inr h))
    · rcases List.mem_cons.mp h with rfl | h
      · exact Or.inl (mem_insertRuleDesc.mpr (Or.inl rfl))
      · exact Or.inr h

theorem check_custom_rules_eq_find (eng : RegexEngine) (m : Message)
    (rules : List FilterRule)
    (h : ∀ r ∈ rules, r.action = "allow" ∨ r.action = "block") :
    check_custom_rules eng rules m =
      (match rules.find? (fun r => evaluate_rule eng r m) with
       | some r => r.action == "allow"
       | none => true) := by
  induction rules with
  | nil => rfl
  | cons r rest ih =>
    have hr := h r (by simp)
    have hrest : ∀ x ∈ rest, x.action = "allow" ∨ x.action = "block" :=
      fun x hx => h x (by simp [hx])
    by_cases he : evaluate_rule eng r m = true
    · rcases hr with ha | ha <;>
        simp [check_custom_rules, he, ha, List.find?_cons_of_pos]
    · have he' : evaluate_rule eng r m = false := by
        simpa using he
      rw [check_custom_rules]
      rw [List.find?_cons_of_neg _ (by simp [he'])]
      simp [he', ih hrest]

theorem stepContentSource_eq_check_content (f : MessageFilter) (m : Message) :
    stepContentSource f m = (if check_content f m.text = false then some false else none) := by
  unfold stepContentSource stepContentClaim check_content
  by_cases h0 : m.text = ""
  · simp [h0]
  · by_cases hkw : f.keywords.any (fun k => strContains (pyLower m.text) (pyLower k)) = true
    · simp [h0, hkw]
    · by_cases hrx : f.regex_patterns.any (fun p => p m.text) = true
      · simp [h0, hkw, hrx]
      · simp [h0, hkw, hrx]

theorem should_forward_fst_eq_admitAmended (eng : RegexEngine) (f : MessageFilter)
    (m : Message) (h : f.enabled = true) :
    (should_forward eng f m).1 = admitAmendedC2 eng f m := by
  rw [should_forward, if_neg (by simp [h]), admitAmendedC2, stepContentSource_eq_check_content]
  unfold stepSenderAllow stepSenderDeny stepChannelAllow stepChannelDeny stepCustom
  split_ifs <;> simp_all [firstDecisive]

theorem should_forward_snd_stats (eng : RegexEngine) (f : MessageFilter) (m : Message) :
    ∃ s, (should_forward eng f m).2 = { f with stats := s } := by
  simp only [should_forward]
  split_ifs <;> exact ⟨_, rfl⟩

theorem should_forward_fst_setStats (eng : RegexEngine) (f : MessageFilter) (m : Message)
    (s : FilterStats) :
    (should_forward eng { f with stats := s } m).1 = (should_forward eng f m).1 := by
  by_cases h : f.enabled = true
  · have h2 : ({ f with stats := s } : MessageFilter).enabled = true := h
    rw [should_forward_fst_eq_admitAmended eng { f with stats := s } m h2,
      should_forward_fst_eq_admitAmended eng f m h]
    rfl
  · have h' : f.enabled = false := by
      simpa using h
    have h2 : ({ f with stats := s } : MessageFilter).enabled = false := h'
    simp [should_forward, h', h2]

theorem map_mark_id (id : Nat) (tl : List TrackedEntry) (h : ∀ x ∈ tl, x.id ≠ id) :
    tl.map (fun e => if e.id == id then
      { e with forwarded := true, forwardCount := e.forwardCount + 1 } else e) = tl := by
  induction tl with
  | nil => rfl
  | cons a as ih =>
    have ha : (a.id == id) = false := by
      simpa using h a (by simp)
    rw [List.map_cons, ih (fun x hx => h x (by simp [hx]))]
    simp [ha]

theorem mark_forwarded_head (e : TrackedEntry) (tl : List TrackedEntry) (id : Nat)
    (he : e.id = id) (htl : ∀ x ∈ tl, x.id ≠ id) :
    MessageTracker.mark_forwarded ⟨e :: tl⟩ id =
      ⟨{ e with forwarded := true, forwardCount := e.forwardCount + 1 } :: tl⟩ := by
  unfold MessageTracker.mark_forwarded
  rw [show (⟨e :: tl⟩ : MessageTracker).entries = e :: tl from rfl]
  rw [List.map_cons, map_mark_id id tl htl]
  simp [he]

theorem has_seen_false (t : MessageTracker) (id : Nat) (h : t.has_seen id = false) :
    ∀ x ∈ t.entries, x.id ≠ id := by
  intro x hx heq
  have hany : t.has_seen id = true := by
    unfold MessageTracker.has_seen
    exact List.any_eq_true.mpr ⟨x, hx, by simp [heq]⟩
  rw [hany] at h
  cases h

theorem add_message_not_seen (t : MessageTracker) (id : Nat) (fr tn tx : String) (ch : Int)
    (h : t.has_seen id = false) :
    t.add_message id fr tn tx ch =
      ((⟨id, fr, tn, tx, ch, false, 0⟩ : TrackedEntry),
        (⟨(⟨id, fr, tn, tx, ch, false, 0⟩ : TrackedEntry) :: t.entries⟩ : MessageTracker)) := by
  have hfind : t.entries.find? (fun e => e.id == id) = none := by
    rw [List.find?_eq_none]
    intro x hx hpx
    exact has_seen_false t id h x hx (by simpa using hpx)
  simp [MessageTracker.add_message, hfind]

theorem fanOutAux_sends (sOk : Nat → Bool) (src msgId : Nat) (is : List Nat) :
    ∀ (tr : MessageTracker) (st : List RadioStats),
      (fanOutAux sOk src msgId is tr st).sends =
        (is.filter (fun i => i ≠ src)).map (fun i => (i, sOk i)) := by
  induction is with
  | nil => intro tr st; rfl
  | cons i is ih =>
    intro tr st
    by_cases hi : i = src
    · simp [fanOutAux, hi, ih, List.filter_cons]
    · by_cases hs : sOk i = true
      · simp [fanOutAux, hi, hs, ih, List.filter_cons]
      · have hs' : sOk i = false := by
          simpa using hs
        simp [fanOutAux, hi, hs', ih, List.filter_cons]

theorem fanOutAux_markCalls (sOk : Nat → Bool) (src msgId : Nat) (is : List Nat) :
    ∀ (tr : MessageTracker) (st : List RadioStats),
      (fanOutAux sOk src msgId is tr st).markCalls =
        ((is.filter (fun i => i ≠ src)).filter (fun i => sOk i)).length := by
  induction is with
  | nil => intro tr st; rfl
  | cons i is ih =>
    intro tr st
    by_cases hi : i = src
    · simp [fanOutAux, hi, ih, List.filter_cons]
    · by_cases hs : sOk i = true
      · simp [fanOutAux, hi, hs, ih, List.filter_cons]
      · have hs' : sOk i = false := by
          simpa using hs
        simp [fanOutAux, hi, hs', ih, List.filter_cons]

theorem fanOutAux_tracker (sOk : Nat → Bool) (src msgId : Nat) (is : List Nat) :
    ∀ (e : TrackedEntry) (tl : List TrackedEntry) (st : List RadioStats),
      e.id = msgId → (∀ x ∈ tl, x.id ≠ msgId) →
      (fanOutAux sOk src msgId is ⟨e :: tl⟩ st).tracker =
        ⟨{ e with
            forwarded := e.forwarded || (is.filter (fun i => i ≠ src)).any (fun i => sOk i),
            forwardCount := e.forwardCount +
              ((is.filter (fun i => i ≠ src)).filter (fun i => sOk i)).length } :: tl⟩ := by
  induction is with
  | nil =>
    intro e tl st he htl
    simp [fanOutAux]
  | cons i is ih =>
    intro e tl st he htl
    by_cases hi : i = src
    · simp [fanOutAux, hi, ih e tl st he htl, List.filter_cons]
    · by_cases hs : sOk i = true
      · have hstep : (fanOutAux sOk src msgId (i :: is) ⟨e :: tl⟩ st).tracker =
            (fanOutAux sOk src msgId is (MessageTracker.mark_forwarded ⟨e :: tl⟩ msgId)
              (bumpAt (fun s => { s with sent := s.sent + 1 }) st i)).tracker := by
          simp [fanOutAux, hi, hs]
        rw [hstep, mark_forwarded_head e tl msgId he htl,
          ih { e with forwarded := true, forwardCount := e.forwardCount + 1 } tl _ he htl]
        simp [List.filter_cons, hi, hs, Nat.add_comm, Nat.add_assoc, Nat.add_left_comm]
      · have hs' : sOk i = false := by
          simpa using hs
        have hstep : (fanOutAux sOk src msgId (i :: is) ⟨e :: tl⟩ st).tracker =
            (fanOutAux sOk src msgId is ⟨e :: tl⟩
              (bumpAt (fun s => { s with errors := s.errors + 1 }) st i)).tracker := by
          simp [fanOutAux, hi, hs']
        rw [hstep, ih e tl _ he htl]
        simp [List.filter_cons, hi, hs']

theorem bumpAt_get_ne (f : RadioStats → RadioStats) (st : List RadioStats) :
    ∀ (i j : Nat), j ≠ i → (bumpAt f st i)[j]? = st[j]? := by
  induction st with
  | nil => intro i j h; rfl
  | cons s rest ih =>
    intro i j h
    cases i with
    | zero =>
      cases j with
      | zero => exact absurd rfl h
      | succ j => simp [bumpAt]
    | succ i =>
      cases j with
      | zero => simp [bumpAt]
      | succ j => simpa [bumpAt] using ih i j (fun hh => h (by rw [hh]))

theorem bumpAt_get_eq (f : RadioStats → RadioStats) (st : List RadioStats) :
    ∀ i, (bumpAt f st i)[i]? = (st[i]?).map f := by
  induction st with
  | nil => intro i; rfl
  | cons s rest ih =>
    intro i
    cases i with
    | zero => simp [bumpAt]
    | succ i => simpa [bumpAt] using ih i

theorem fanOutAux_stats_not_mem (sOk : Nat → Bool) (src msgId : Nat) (is : List Nat) :
    ∀ (tr : MessageTracker) (st : List RadioStats) (t : Nat), t ∉ is →
      ((fanOutAux sOk src msgId is tr st).stats)[t]? = st[t]? := by
  induction is with
  | nil => intro tr st t _; rfl
  | cons i is ih =>
    intro tr st t ht
    have hti : t ≠ i := fun hh => ht (by simp [hh])
    have htis : t ∉ is := fun hh => ht (by simp [hh])
    by_cases hi : i = src
    · simp [fanOutAux, hi, ih _ _ _ htis]
    · by_cases hs : sOk i = true
      · simp [fanOutAux, hi, hs, ih _ _ _ htis, bumpAt_get_ne _ _ _ _ hti]
      · have hs' : sOk i = false := by
          simpa using hs
        simp [fanOutAux, hi, hs', ih _ _ _ htis, bumpAt_get_ne _ _ _ _ hti]

theorem fanOutAux_stats_target (sOk : Nat → Bool) (src msgId : Nat) (is : List Nat) :
    ∀ (tr : MessageTracker) (st : List RadioStats) (t : Nat),
      is.Nodup → t ∈ is → t ≠ src →
      ((fanOutAux sOk src msgId is tr st).stats)[t]? =
        (st[t]?).map (fun s => if sOk t then { s with sent := s.sent + 1 }
          else { s with errors := s.errors + 1 }) := by
  induction is with
  | nil => intro tr st t _ ht _; cases ht
  | cons i is ih =>
    intro tr st t hnd ht hts
    rcases List.nodup_cons.mp hnd with ⟨hni, hnd'⟩
    rcases List.mem_cons.mp ht with rfl | hmem
    · have hnsrc : ¬ (t = src) := hts
      by_cases hs : sOk t = true
      · simp [fanOutAux, hnsrc, hs, fanOutAux_stats_not_mem _ _ _ _ _ _ _ hni,
          bumpAt_get_eq]
      · have hs' : sOk t = false := by
          simpa using hs
        simp [fanOutAux, hnsrc, hs', fanOutAux_stats_not_mem _ _ _ _ _ _ _ hni,
          bumpAt_get_eq]
    · have hti : t ≠ i := fun hh => hni (hh ▸ hmem)
      by_cases hi : i = src
      · simp [fanOutAux, hi, ih _ _ _ hnd' hmem hts]
      · by_cases hs : sOk i = true
        · simp [fanOutAux, hi, hs, ih _ _ _ hnd' hmem hts, bumpAt_get_ne _ _ _ _ hti]
        · have hs' : sOk i = false := by
            simpa using hs
          simp [fanOutAux, hi, hs', ih _ _ _ hnd' hmem hts, bumpAt_get_ne _ _ _ _ hti]

theorem brAfterFilter_tracker (eng : RegexEngine) (br : Bridge) (m : Message) :
    (brAfterFilter eng br m).tracker = br.tracker := by
  cases hf : br.filter <;> simp [brAfterFilter, hf]

theorem brAfterFilter_numRadios (eng : RegexEngine) (br : Bridge) (m : Message) :
    (brAfterFilter eng br m).numRadios = br.numRadios := by
  cases hf : br.filter <;> simp [brAfterFilter, hf]

theorem brAfterFilter_stats (eng : RegexEngine) (br : Bridge) (m : Message) :
    (brAfterFilter eng br m).stats = br.stats := by
  cases hf : br.filter <;> simp [brAfterFilter, hf]

theorem handle_message_filtered (eng : RegexEngine) (sendOk : Nat → Bool) (br : Bridge)
    (pkt : Packet) (si : Nat) (d : Decoded) (f : MessageFilter)
    (hd : pkt.decoded = some d) (hp : d.portnum = "TEXT_MESSAGE_APP")
    (hs : br.tracker.has_seen (pkt.id.getD 0) = false)
    (hf : br.filter = some f)
    (hr : (should_forward eng f (mkMessage pkt d)).1 = false) :
    handle_message eng sendOk br pkt si =
      ⟨{ br with filter := some (should_forward eng f (mkMessage pkt d)).2 }, [], 0⟩ := by
  unfold handle_message
  rw [hd]
  simp [hp, hs, hf, hr]

theorem handle_message_admitted (eng : RegexEngine) (sendOk : Nat → Bool) (br : Bridge)
    (pkt : Packet) (si : Nat) (d : Decoded)
    (hd : pkt.decoded = some d) (hp : d.portnum = "TEXT_MESSAGE_APP")
    (hs : br.tracker.has_seen (pkt.id.getD 0) = false)
    (ha : filterAdmits eng br.filter (mkMessage pkt d) = true) :
    handle_message eng sendOk br pkt si =
      routeAdmitted sendOk (brAfterFilter eng br (mkMessage pkt d)) (mkMessage pkt d) si := by
  unfold handle_message
  rw [hd]
  cases hf : br.filter with
  | none => simp [hp, hs, hf, brAfterFilter]
  | some f =>
    rw [hf] at ha
    simp only [filterAdmits] at ha
    simp [hp, hs, hf, brAfterFilter, ha]

theorem routeAdmitted_sends (sendOk : Nat → Bool) (br : Bridge) (m : Message) (si : Nat) :
    (routeAdmitted sendOk br m si).sends =
      ((List.range br.numRadios).filter (fun i => i ≠ si)).map (fun i => (i, sendOk i)) := by
  simp [routeAdmitted, fanOutAux_sends]

theorem routeAdmitted_markCalls (sendOk : Nat → Bool) (br : Bridge) (m : Message) (si : Nat) :
    (routeAdmitted sendOk br m si).markForwardedCalls =
      (((List.range br.numRadios).filter (fun i => i ≠ si)).filter (fun i => sendOk i)).length := by
  simp [routeAdmitted, fanOutAux_markCalls]

theorem routeAdmitted_tracker (sendOk : Nat → Bool) (br : Bridge) (m : Message) (si : Nat)
    (hs : br.tracker.has_seen m.id = false) :
    (routeAdmitted sendOk br m si).bridge.tracker =
      ⟨(⟨m.id, m.fromNode, m.toNode, m.text, m.channel,
          ((List.range br.numRadios).filter (fun i => i ≠ si)).any (fun i => sendOk i),
          (((List.range br.numRadios).filter (fun i => i ≠ si)).filter (fun i => sendOk i)).length⟩ :
        TrackedEntry) :: br.tracker.entries⟩ := by
  unfold routeAdmitted
  rw [add_message_not_seen br.tracker m.id m.fromNode m.toNode m.text m.channel hs]
  have htl : ∀ x ∈ br.tracker.entries, x.id ≠ m.id := has_seen_false br.tracker m.id hs
  dsimp only
  rw [fanOutAux_tracker sendOk si m.id (List.range br.numRadios)
    ⟨m.id, m.fromNode, m.toNode, m.text, m.channel, false, 0⟩ br.tracker.entries _ rfl htl]
  simp

theorem routeAdmitted_stats_target (sendOk : Nat → Bool) (br : Bridge) (m : Message)
    (si : Nat) (t : Nat) (ht : t < br.numRadios) (hts : t ≠ si) :
    ((routeAdmitted sendOk br m si).bridge.stats)[t]? =
      ((bumpAt (fun s => { s with received := s.received + 1 }) br.stats si)[t]?).map
        (fun s => if sendOk t then { s with sent := s.sent + 1 }
          else { s with errors := s.errors + 1 }) := by
  unfold routeAdmitted
  exact fanOutAux_stats_target sendOk si m.id (List.range br.numRadios) _ _ t
    (List.nodup_range br.numRadios) (List.mem_range.mpr ht) hts

theorem handle_message_sends_cases (eng : RegexEngine) (sendOk : Nat → Bool) (br : Bridge)
    (pkt : Packet) (si : Nat) :
    (handle_message eng sendOk br pkt si).sends = []
    ∨ (handle_message eng sendOk br pkt si).sends =
        ((List.range br.numRadios).filter (fun i => i ≠ si)).map (fun i => (i, sendOk i)) := by
  cases hd : pkt.decoded with
  | none =>
    left
    have h : handle_message eng sendOk br pkt si = ⟨br, [], 0⟩ := by
      unfold handle_message; rw [hd]
    rw [h]
  | some d =>
    by_cases hp : d.portnum = "TEXT_MESSAGE_APP"
    case neg =>
      left
      have h : handle_message eng sendOk br pkt si = ⟨br, [], 0⟩ := by
        unfold handle_message; rw [hd]; simp [hp]
      rw [h]
    case pos =>
      by_cases hs : br.tracker.has_seen (pkt.id.getD 0) = true
      case pos =>
        left
        have h : handle_message eng sendOk br pkt si = ⟨br, [], 0⟩ := by
          unfold handle_message; rw [hd]; simp [hp, hs]
        rw [h]
      case neg =>
        have hs' : br.tracker.has_seen (pkt.id.getD 0) = false := by
          simpa using hs
        by_cases ha : filterAdmits eng br.filter (mkMessage pkt d) = true
        case pos =>
          right
          rw [handle_message_admitted eng sendOk br pkt si d hd hp hs' ha,
            routeAdmitted_sends, brAfterFilter_numRadios]
        case neg =>
          left
          cases hf : br.filter with
          | none =>
            rw [hf] at ha
            simp [filterAdmits] at ha
          | some f =>
            have hr : (should_forward eng f (mkMessage pkt d)).1 = false := by
              rw [hf] at ha
              simpa [filterAdmits] using ha
            rw [handle_message_filtered eng sendOk br pkt si d f hd hp hs' hf hr]

/-- Claim C1, counterexample: with an enabled sender-deny-list filter
rejecting the fresh (non-duplicate) text message from "N2", the routing
pass makes no send but also leaves the tracker untouched: `Seen(7)` is
still false after the pass, contradicting the claim that the rejected
message is recorded in the dedup tracker before stopping. -/
theorem C1_counterexample :
    (should_forward engTriv fC1
      (mkMessage pktC1 ⟨"TEXT_MESSAGE_APP", Payload.bytes [104, 105]⟩)).1 = false
    ∧ brC1.tracker.has_seen 7 = false
    ∧ (handle_message engTriv sendAll brC1 pktC1 0).sends = []
    ∧ (handle_message engTriv sendAll brC1 pktC1 0).bridge.tracker.has_seen 7 = false :=
  ⟨by decide, by decide, by decide, by decide⟩

/-- Claim C1, amended: a non-duplicate inbound text message that the filter
rejects is NOT recorded in the dedup tracker: the router stops with the
tracker unchanged, no Send call and no `mark_forwarded` call, and a later
re-delivery of the same packet is re-evaluated by the filter (only the
filter's statistics having changed), is rejected again, and again triggers
no Send call and leaves the tracker unchanged. -/
theorem C1_filtered_not_recorded (eng : RegexEngine) (sendOk : Nat → Bool) (br : Bridge)
    (pkt : Packet) (si : Nat) (d : Decoded) (f : MessageFilter)
    (hd : pkt.decoded = some d) (hp : d.portnum = "TEXT_MESSAGE_APP")
    (hs : br.tracker.has_seen (pkt.id.getD 0) = false)
    (hf : br.filter = some f)
    (hr : (should_forward eng f (mkMessage pkt d)).1 = false) :
    (handle_message eng sendOk br pkt si).bridge.tracker = br.tracker
    ∧ (handle_message eng sendOk br pkt si).sends = []
    ∧ (handle_message eng sendOk br pkt si).markForwardedCalls = 0
    ∧ ∀ (sendOk2 : Nat → Bool) (si2 : Nat),
        (handle_message eng sendOk2 (handle_message eng sendOk br pkt si).bridge pkt si2).sends = []
        ∧ (handle_message eng sendOk2
            (handle_message eng sendOk br pkt si).bridge pkt si2).bridge.tracker = br.tracker := by
  have h1 := handle_message_filtered eng sendOk br pkt si d f hd hp hs hf hr
  rw [h1]
  refine ⟨rfl, rfl, rfl, ?_⟩
  intro sendOk2 si2
  obtain ⟨s, hsnd⟩ := should_forward_snd_stats eng f (mkMessage pkt d)
  have hr2 : (should_forward eng (should_forward eng f (mkMessage pkt d)).2
      (mkMessage pkt d)).1 = false := by
    rw [hsnd, should_forward_fst_setStats]
    exact hr
  have h2 := handle_message_filtered eng sendOk2
    { br with filter := some (should_forward eng f (mkMessage pkt d)).2 } pkt si2 d
    ((should_forward eng f (mkMessage pkt d)).2) hd hp hs rfl hr2
  rw [h2]
  exact ⟨rfl, rfl⟩

theorem C1_filtered_not_recorded_witness :
    (handle_message engTriv sendAll brC1 pktC1 0).bridge.tracker = brC1.tracker
    ∧ (handle_message engTriv sendAll brC1 pktC1 0).sends = [] := by
  have h := C1_filtered_not_recorded engTriv sendAll brC1 pktC1 0
    ⟨"TEXT_MESSAGE_APP", Payload.bytes [104, 105]⟩ fC1 rfl rfl (by decide) rfl (by decide)
  exact ⟨h.1, h.2.1⟩

/-- Claim C2, counterexample: with filtering enabled and a single content
regex that matches every text — as the real pattern "x*" does, including
the empty string — a message with empty text is admitted by
`should_forward`, while the check list exactly as the claim words it
blocks at step (5): the source exempts empty text from the content
check. -/
theorem C2_counterexample :
    (should_forward engStar fC2 mC2).1 = true ∧ admitClaimC2 engStar fC2 mC2 = false :=
  ⟨by decide, by decide⟩

/-- Claim C2, amended: for every message evaluated by an enabled filter,
`should_forward` decides exactly as the ordered check list (1)-(7), first
decisive check winning with admission by default, with check (5) amended
to apply only to non-empty text (empty text skips the content check). -/
theorem C2_order_of_checks (eng : RegexEngine) (f : MessageFilter) (m : Message)
    (h : f.enabled = true) :
    (should_forward eng f m).1 = admitAmendedC2 eng f m :=
  should_forward_fst_eq_admitAmended eng f m h

theorem C2_order_of_checks_witness :
    (should_forward engStar fC2 mC2).1 = admitAmendedC2 engStar fC2 mC2 :=
  C2_order_of_checks engStar fC2 mC2 rfl

/-- Claim C3, confirmed: the loaded custom rules are sorted in descending
priority order; when every rule's action is "allow" or "block" (the only
documented actions), the first rule whose pattern matches decides the
outcome and evaluation stops; and in the concrete scenario the
priority-100 allow rule on "EMERGENCY" is evaluated before the priority-0
sender block rule on "bad123456", so the message from the bad node whose
text contains "EMERGENCY" is admitted. -/
theorem C3_priority_first_match :
    (∀ rs : List FilterRule, (sortRulesDesc rs).Pairwise (fun a b => b.priority ≤ a.priority))
    ∧ (∀ (eng : RegexEngine) (rules : List FilterRule) (m : Message),
        (∀ r ∈ rules, r.action = "allow" ∨ r.action = "block") →
        check_custom_rules eng rules m =
          (match rules.find? (fun r => evaluate_rule eng r m) with
           | some r => r.action == "allow"
           | none => true))
    ∧ fC3.custom_rules = [⟨"Emergency Priority", "keyword", "EMERGENCY", "allow", 100⟩,
        ⟨"Block bad node", "sender", "bad123456", "block", 0⟩]
    ∧ (should_forward engTriv fC3 mC3).1 = true :=
  ⟨pairwise_sortRulesDesc,
   fun eng rules m h => check_custom_rules_eq_find eng m rules h,
   by decide, by decide⟩

theorem C3_priority_first_match_witness :
    check_custom_rules engTriv fC3.custom_rules mC3 = true := by
  have h := C3_priority_first_match.2.1 engTriv fC3.custom_rules mC3 (by decide)
  rw [h]
  decide

/-- Claim C4, confirmed: a message whose id the tracker has already seen
stops the router immediately with no side effects: the bridge state — the
tracker, the filter with its counters, and the per-radio statistics — is
returned unchanged, no `sendText` attempt is made on any interface and
`mark_forwarded` is never called, whatever link the duplicate arrives
on. -/
theorem C4_duplicate_no_effects (eng : RegexEngine) (sendOk : Nat → Bool) (br : Bridge)
    (pkt : Packet) (si : Nat)
    (hs : br.tracker.has_seen (pkt.id.getD 0) = true) :
    handle_message eng sendOk br pkt si = ⟨br, [], 0⟩ := by
  unfold handle_message
  cases hd : pkt.decoded with
  | none => rfl
  | some d =>
    by_cases hp : d.portnum = "TEXT_MESSAGE_APP"
    · simp [hp, hs]
    · simp [hp]

theorem C4_duplicate_no_effects_witness :
    handle_message engTriv sendAll brC4 pktC4 0 = ⟨brC4, [], 0⟩
    ∧ handle_message engTriv sendAll brC4 pktC4 1 = ⟨brC4, [], 0⟩ :=
  ⟨C4_duplicate_no_effects engTriv sendAll brC4 pktC4 0 (by decide),
   C4_duplicate_no_effects engTriv sendAll brC4 pktC4 1 (by decide)⟩

/-- Claim C5, confirmed: no `sendText` attempt during any routing pass
targets the source interface; and whenever the fan-out runs at all, the
attempted targets are exactly the other registered interfaces, in
registration order. -/
theorem C5_no_self_forward (eng : RegexEngine) (sendOk : Nat → Bool) (br : Bridge)
    (pkt : Packet) (si : Nat) :
    (handle_message eng sendOk br pkt si).sends.all (fun p => !(p.1 == si)) = true
    ∧ ((handle_message eng sendOk br pkt si).sends = []
       ∨ (handle_message eng sendOk br pkt si).sends.map Prod.fst =
           (List.range br.numRadios).filter (fun i => i ≠ si)) := by
  rcases handle_message_sends_cases eng sendOk br pkt si with h | h
  · rw [h]
    exact ⟨rfl, Or.inl rfl⟩
  · rw [h]
    constructor
    · rw [List.all_eq_true]
      intro p hp
      rcases List.mem_map.mp hp with ⟨i, hi, rfl⟩
      have hne : i ≠ si := by
        have := (List.mem_filter.mp hi).2
        simpa using this
      simpa using hne
    · right
      rw [List.map_map]
      rw [show (Prod.fst ∘ fun i : Nat => (i, sendOk i)) = id from rfl, List.map_id]

/-- Claim C6, confirmed: for an admitted message every fan-out attempt is
independent: the attempts are exactly the non-source interfaces in
registration order, each with its own outcome, so one target's raised
`sendText` (a failed outcome) does not prevent the remaining attempts; a
failed target gets its `errors` counter incremented and a succeeding one
its `sent` counter, independently per target; and the tracked entry's
`forwarded` flag is set exactly when at least one target's send
succeeded. -/
theorem C6_independent_fanout (eng : RegexEngine) (sendOk : Nat → Bool) (br : Bridge)
    (pkt : Packet) (si : Nat) (d : Decoded)
    (hd : pkt.decoded = some d) (hp : d.portnum = "TEXT_MESSAGE_APP")
    (hs : br.tracker.has_seen (pkt.id.getD 0) = false)
    (ha : filterAdmits eng br.filter (mkMessage pkt d) = true) :
    (handle_message eng sendOk br pkt si).sends =
      ((List.range br.numRadios).filter (fun i => i ≠ si)).map (fun i => (i, sendOk i))
    ∧ (handle_message eng sendOk br pkt si).bridge.tracker.entries =
        (⟨pkt.id.getD 0, pkt.fromId.getD "unknown", pkt.toId.getD "unknown",
           extractText d.payload, pkt.channel.getD 0,
           ((List.range br.numRadios).filter (fun i => i ≠ si)).any (fun i => sendOk i),
           (((List.range br.numRadios).filter (fun i => i ≠ si)).filter
             (fun i => sendOk i)).length⟩ : TrackedEntry) :: br.tracker.entries
    ∧ ∀ t, t < br.numRadios → t ≠ si →
        ((handle_message eng sendOk br pkt si).bridge.stats)[t]? =
          ((bumpAt (fun s => { s with received := s.received + 1 }) br.stats si)[t]?).map
            (fun s => if sendOk t then { s with sent := s.sent + 1 }
              else { s with errors := s.errors + 1 }) := by
  rw [handle_message_admitted eng sendOk br pkt si d hd hp hs ha]
  have htr : (brAfterFilter eng br (mkMessage pkt d)).tracker.has_seen
      (mkMessage pkt d).id = false := by
    rw [brAfterFilter_tracker]
    exact hs
  refine ⟨?_, ?_, ?_⟩
  · rw [routeAdmitted_sends, brAfterFilter_numRadios]
  · rw [routeAdmitted_tracker _ _ _ _ htr, brAfterFilter_tracker, brAfterFilter_numRadios]
    rfl
  · intro t ht hts
    have ht' : t < (brAfterFilter eng br (mkMessage pkt d)).numRadios := by
      rw [brAfterFilter_numRadios]
      exact ht
    rw [routeAdmitted_stats_target _ _ _ _ _ ht' hts, brAfterFilter_stats]

theorem C6_independent_fanout_witness :
    (handle_message engTriv sendNot2 brC6 pktC6 0).sends = [(1, true), (2, false), (3, true)]
    ∧ (handle_message engTriv sendNot2 brC6 pktC6 0).bridge.tracker.entries =
        [⟨9, "N1", "broadcast", "hi", 0, true, 2⟩]
    ∧ ((handle_message engTriv sendNot2 brC6 pktC6 0).bridge.stats)[2]? =
        some ⟨0, 0, 1⟩
    ∧ ((handle_message engTriv sendNot2 brC6 pktC6 0).bridge.stats)[1]? =
        some ⟨0, 1, 0⟩ := by
  have h := C6_independent_fanout engTriv sendNot2 brC6 pktC6 0
    ⟨"TEXT_MESSAGE_APP", Payload.bytes [104, 105]⟩ rfl rfl (by decide) rfl
  refine ⟨Eq.trans h.1 (by decide), Eq.trans h.2.1 (by decide),
    Eq.trans (h.2.2 2 (by decide) (by decide)) (by decide),
    Eq.trans (h.2.2 1 (by decide) (by decide)) (by decide)⟩

/-- Claim C7, confirmed: for an admitted message the router calls
`mark_forwarded` once per successful send — so at least once exactly when
some fan-out send attempt succeeded, and never when every attempt
failed. -/
theorem C7_mark_forwarded_iff (eng : RegexEngine) (sendOk : Nat → Bool) (br : Bridge)
    (pkt : Packet) (si : Nat) (d : Decoded)
    (hd : pkt.decoded = some d) (hp : d.portnum = "TEXT_MESSAGE_APP")
    (hs : br.tracker.has_seen (pkt.id.getD 0) = false)
    (ha : filterAdmits eng br.filter (mkMessage pkt d) = true) :
    (handle_message eng sendOk br pkt si).markForwardedCalls =
      (((List.range br.numRadios).filter (fun i => i ≠ si)).filter
        (fun i => sendOk i)).length
    ∧ (0 < (handle_message eng sendOk br pkt si).markForwardedCalls ↔
        ∃ p ∈ (handle_message eng sendOk br pkt si).sends, p.2 = true) := by
  rw [handle_message_admitted eng sendOk br pkt si d hd hp hs ha]
  constructor
  · rw [routeAdmitted_markCalls, brAfterFilter_numRadios]
  · rw [routeAdmitted_markCalls, routeAdmitted_sends, brAfterFilter_numRadios]
    constructor
    · intro hpos
      obtain ⟨i, hi⟩ := List.exists_mem_of_length_pos hpos
      rcases List.mem_filter.mp hi with ⟨hmem, hsok⟩
      exact ⟨(i, sendOk i), List.mem_map.mpr ⟨i, hmem, rfl⟩, by simpa using hsok⟩
    · rintro ⟨p, hp2, hptrue⟩
      rcases List.mem_map.mp hp2 with ⟨i, hi, rfl⟩
      have hmem : i ∈ ((List.range br.numRadios).filter (fun i => i ≠ si)).filter
          (fun i => sendOk i) :=
        List.mem_filter.mpr ⟨hi, by simpa using hptrue⟩
      exact List.length_pos_of_mem hmem

theorem C7_mark_forwarded_iff_witness :
    (handle_message engTriv sendNot2 brC6 pktC6 0).markForwardedCalls = 2
    ∧ (handle_message engTriv (fun _ => false) brC6 pktC6 0).markForwardedCalls = 0 := by
  have h1 := C7_mark_forwarded_iff engTriv sendNot2 brC6 pktC6 0
    ⟨"TEXT_MESSAGE_APP", Payload.bytes [104, 105]⟩ rfl rfl (by decide) rfl
  have h2 := C7_mark_forwarded_iff engTriv (fun _ => false) brC6 pktC6 0
    ⟨"TEXT_MESSAGE_APP", Payload.bytes [104, 105]⟩ rfl rfl (by decide) rfl
  exact ⟨Eq.trans h1.1 (by decide), Eq.trans h2.1 (by decide)⟩

/-- Claim C8, counterexample: under an engine for which the pattern "[" is
malformed, the rule loader still keeps the custom regex rule with this
pattern — it is not skipped when the rule set is loaded — and evaluation
consults the engine: the very same rule does not match under the engine
that rejects "[" yet matches under an engine that compiles it, so the
pattern is compiled (and its failure handled) at evaluation time, contrary
to the claim. -/
theorem C8_counterexample :
    engBad.compile "[" = none
    ∧ loadCustomRules [cfgRuleBad] = [ruleBad]
    ∧ evaluate_rule engBad ruleBad mC8 = false
    ∧ evaluate_rule engGood ruleBad mC8 = true :=
  ⟨by simp [engBad], by decide, by decide, by decide⟩

/-- Claim C8, amended: a malformed pattern among the content filters'
`regex_patterns` is rejected at load time (the pattern is skipped), while a
malformed pattern in a custom rule of kind regex is NOT rejected at load —
the rule is always kept — and is instead compiled at evaluation time,
where a compilation failure is caught and the rule treated as
non-matching, so evaluation never fails. -/
theorem C8_malformed_regex (eng : RegexEngine) :
    (∀ (p : String) (rest : List String), eng.compile p = none →
        loadRegexPatterns eng (p :: rest) = loadRegexPatterns eng rest)
    ∧ (∀ (cfgs : List RuleConfig) (c : RuleConfig), c ∈ cfgs →
        ruleOfConfig c ∈ loadCustomRules cfgs)
    ∧ (∀ (r : FilterRule) (m : Message),
        r.filter_type = "regex" → eng.compile r.pattern = none →
        evaluate_rule eng r m = false) := by
  refine ⟨?_, ?_, ?_⟩
  · intro p rest h
    simp [loadRegexPatterns, List.filterMap_cons, h]
  · intro cfgs c hc
    exact mem_sortRulesDesc (List.mem_map_of_mem ruleOfConfig hc)
  · intro r m hk hc
    simp [evaluate_rule, hk, hc]

theorem C8_malformed_regex_witness :
    loadRegexPatterns engBad ["["] = loadRegexPatterns engBad []
    ∧ ruleBad ∈ loadCustomRules [cfgRuleBad]
    ∧ evaluate_rule engBad ruleBad mC8 = false := by
  have h := C8_malformed_regex engBad
  have hmem := h.2.1 [cfgRuleBad] cfgRuleBad (by simp)
  have he : ruleOfConfig cfgRuleBad = ruleBad := by decide
  rw [he] at hmem
  exact ⟨h.1 "[" [] (by simp [engBad]), hmem, h.2.2 ruleBad mC8 rfl (by simp [engBad, ruleBad])⟩

/-- Claim C9, counterexample: the router decodes byte payloads with
`errors='ignore'`, which drops invalid bytes rather than substituting
them: on the bytes 0xFF 'H' 'i' the router's text is "Hi", while the
replacement decoding the claim describes yields U+FFFD followed by "Hi" —
the two disagree. -/
theorem C9_counterexample :
    extractText (Payload.bytes [255, 72, 105]) = "Hi"
    ∧ decodeUtf8Replace [255, 72, 105] = String.mk [Char.ofNat 65533, 'H', 'i']
    ∧ extractText (Payload.bytes [255, 72, 105]) ≠ decodeUtf8Replace [255, 72, 105] :=
  ⟨by decide, by decide, by decide⟩

/-- Claim C9, amended: byte payloads are decoded as UTF-8 best-effort with
invalid bytes DROPPED, never raising: the ignoring decoder agrees with
strict decoding whenever strict decoding succeeds, and on an input with
invalid bytes — where strict decoding fails — the router still obtains
the text with the invalid bytes removed rather than dropping the
message. -/
theorem C9_decode_ignore :
    (∀ (bs : List Nat) (s : String), decodeUtf8Strict bs = some s → decodeUtf8Ignore bs = s)
    ∧ decodeUtf8Strict [255, 72, 105] = none
    ∧ extractText (Payload.bytes [255, 72, 105]) = "Hi" := by
  refine ⟨?_, by decide, by decide⟩
  intro bs s h
  unfold decodeUtf8Strict at h
  by_cases hall : (utf8Tokens bs).all Option.isSome = true
  · rw [if_pos hall] at h
    exact Option.some.inj h
  · rw [if_neg hall] at h
    cases h

theorem C9_decode_ignore_witness :
    decodeUtf8Ignore [72, 105] = "Hi" :=
  C9_decode_ignore.1 [72, 105] "Hi" (by decide)

/-- Claim C10, confirmed: `should_forward` preserves the statistics
invariant `total_checked = total_allowed + total_blocked`: a disabled
filter returns True with the filter state untouched; an enabled filter
increments `total_checked` by exactly one and exactly one of
`total_allowed` (on a True decision) or `total_blocked` (on a False
decision) by exactly one, leaving the other unchanged, so the invariant is
preserved. -/
theorem C10_stats_invariant (eng : RegexEngine) (f : MessageFilter) (m : Message) :
    (f.enabled = false → should_forward eng f m = (true, f))
    ∧ (f.enabled = true →
        (should_forward eng f m).2.stats.total_checked = f.stats.total_checked + 1
        ∧ (((should_forward eng f m).1 = true
             ∧ (should_forward eng f m).2.stats.total_allowed = f.stats.total_allowed + 1
             ∧ (should_forward eng f m).2.stats.total_blocked = f.stats.total_blocked)
           ∨ ((should_forward eng f m).1 = false
             ∧ (should_forward eng f m).2.stats.total_allowed = f.stats.total_allowed
             ∧ (should_forward eng f m).2.stats.total_blocked = f.stats.total_blocked + 1))
        ∧ (f.stats.total_checked = f.stats.total_allowed + f.stats.total_blocked →
            (should_forward eng f m).2.stats.total_checked =
              (should_forward eng f m).2.stats.total_allowed +
                (should_forward eng f m).2.stats.total_blocked)) := by
  constructor
  · intro h
    simp [should_forward, h]
  · intro h
    rw [should_forward, if_neg (by simp [h])]
    split_ifs <;>
      first
        | exact ⟨rfl, Or.inr ⟨rfl, rfl, rfl⟩, fun hI => by
            show f.stats.total_checked + 1 =
              f.stats.total_allowed + (f.stats.total_blocked + 1)
            omega⟩
        | exact ⟨rfl, Or.inl ⟨rfl, rfl, rfl⟩, fun hI => by
            show f.stats.total_checked + 1 =
              (f.stats.total_allowed + 1) + f.stats.total_blocked
            omega⟩

theorem C10_stats_invariant_witness :
    should_forward engTriv fOff mC8 = (true, fOff)
    ∧ (should_forward engTriv fOn mC8).2.stats.total_checked = fOn.stats.total_checked + 1 :=
  ⟨(C10_stats_invariant engTriv fOff mC8).1 rfl,
   ((C10_stats_invariant engTriv fOn mC8).2 rfl).1⟩
